import Mathlib

/-!
Shallow embedding of `src/sbrick.js` (the SBrick Web Bluetooth client).

The embedding models the per-port state records, the promise-queue of
pending wire operations, and the state transitions performed by `drive`,
`quickDrive`, `stop`, `_pvm`, the `_keepalive` interval callback, the
firmware-compatibility gate inside `connect`, and the battery telemetry
decoding (`_volt` / `getBattery`).

Modelling conventions:
* JS numbers used as integers become `Nat` / `Int`; `parseInt` applied to a
  nonnegative number is truncation toward zero, i.e. `Nat` floor division.
* The real-valued telemetry arithmetic (`_volt`, `getBattery`, the firmware
  version comparison) is embedded over `ℚ`; the decimal literals of the
  source (0.83875, 4.17, ...) are exact rationals, and at every input used
  in the theorems below the IEEE-double rounding of the source cannot move
  the compared values across a truncation or comparison boundary.
* A queued closure that reads `this.ports` when it runs (drive, quickDrive)
  is modelled as a marker (`PendingOp.driveOp`, `PendingOp.quickDriveOp`)
  whose bytes are produced by `execOp` from the state at execution time;
  closures that capture a finished byte array at enqueue time (break
  frames, PVM frames, the keepalive ADC probe) are `PendingOp.rawOp`.
-/

namespace SBrickSpec

/-- `MIN = 0`, no speed. -/
def MIN : Nat := 0

/-- `MAX = 255`, max speed. -/
def MAX : Nat := 255

/-- `MAX_QD = 127`, max speed for QuickDrive. -/
def MAX_QD : Nat := 127

/-- `CMD_BREAK = 0x00`, stop command opcode. -/
def CMD_BREAK : Nat := 0x00

/-- `CMD_DRIVE = 0x01`, drive command opcode. -/
def CMD_DRIVE : Nat := 0x01

/-- `CMD_ADC = 0x0F`, query ADC opcode. -/
def CMD_ADC : Nat := 0x0F

/-- `CMD_ADC_VOLT = 0x08`, voltage channel. -/
def CMD_ADC_VOLT : Nat := 0x08

/-- `CMD_ADC_TEMP = 0x09`, temperature channel. -/
def CMD_ADC_TEMP : Nat := 0x09

/-- `CMD_PVM = 0x2C`, periodic voltage measurement opcode. -/
def CMD_PVM : Nat := 0x2C

/-- `CLOCKWISE = 0x00`. -/
def CLOCKWISE : Nat := 0x00

/-- `COUNTERCLOCKWISE = 0x01`. -/
def COUNTERCLOCKWISE : Nat := 0x01

/-- `FIRMWARE_COMPATIBILITY = 4.17`. -/
def FIRMWARE_COMPATIBILITY : ℚ := 4.17

/-- `MAX_VOLT = 9`, full-battery voltage. -/
def MAX_VOLT : ℚ := 9

/-- `PORTS[portId].hexId`: the hardware id of a port equals its index. -/
def portHexId (portId : Fin 4) : Nat := portId.val

/-- `PORTS[portId].channelHexIds`: port `i` owns channels `2*i` and `2*i+1`. -/
def channelHexIds (portId : Fin 4) : List Nat :=
  [2 * portId.val, 2 * portId.val + 1]

/-- Port mode: the string constants `OUTPUT` / `INPUT` of the source. -/
inductive Mode where
  | output
  | input
deriving DecidableEq, Repr

/-- One entry of `this.ports`. -/
structure Port where
  power : Nat
  direction : Nat
  mode : Mode
  pvmActive : Bool
  busy : Bool
deriving DecidableEq, Repr

/-- The constructor's initial port record:
`{ power: MIN, direction: CLOCKWISE, mode: OUTPUT, pvmActive: false, busy: false }`. -/
def initPort : Port :=
  { power := MIN, direction := CLOCKWISE, mode := .output
    pvmActive := false, busy := false }

/-- A pending operation sitting in the promise queue.  `driveOp` and
`quickDriveOp` read the port records when they execute; `rawOp` carries the
bytes fixed at enqueue time (break frames, PVM frames, keepalive probe). -/
inductive PendingOp where
  | driveOp (portId : Fin 4)
  | quickDriveOp
  | rawOp (frame : List Nat)
deriving DecidableEq, Repr

/-- The mutable state of one `SBrick` object: the four port records plus the
queue of pending wire operations (FIFO, appended at the tail). -/
structure SBrickState where
  ports : Fin 4 → Port
  pending : List PendingOp

/-- The state right after the constructor ran: four idle output ports and an
empty queue. -/
def initState : SBrickState := { ports := fun _ => initPort, pending := [] }

/-- The power clamp of `drive` / `quickDrive`:
`Math.min(Math.max(parseInt(Math.abs(power)), MIN), MAX)`.
On integer inputs `parseInt` is the identity on the magnitude. -/
def clampPower (power : Int) : Nat :=
  min (max power.natAbs MIN) MAX

/-- Direction coercion of `drive` / `quickDrive`.  An omitted direction first
defaults to `CLOCKWISE` (`portObj.direction || CLOCKWISE`), then the stored
value is `direction ? COUNTERCLOCKWISE : CLOCKWISE`: a number is truthy
exactly when it is nonzero (`NaN`, also falsy, is not an integer). -/
def coerceDirection (direction : Option Int) : Nat :=
  match direction with
  | none => CLOCKWISE
  | some v => if v = 0 then CLOCKWISE else COUNTERCLOCKWISE

/-- The PVM frame built by `_pvm`: opcode `CMD_PVM` followed by both channel
ids of every port whose `pvmActive` flag is set, in port-index order. -/
def pvmCommand (ports : Fin 4 → Port) : List Nat :=
  CMD_PVM ::
    ((List.finRange 4).map
      (fun i => if (ports i).pvmActive then channelHexIds i else [])).flatten

/-- One iteration of the `_pvm` forEach: update one port's `pvmActive` flag
when it differs from the requested value, recording whether anything
changed (`update_pvm`). -/
def pvmStep (acc : (Fin 4 → Port) × Bool) (obj : Fin 4 × Bool) :
    (Fin 4 → Port) × Bool :=
  if (acc.1 obj.1).pvmActive ≠ obj.2 then
    (Function.update acc.1 obj.1 { acc.1 obj.1 with pvmActive := obj.2 }, true)
  else acc

/-- `_pvm(portObjs)`: apply every requested `pvmActive` update; when at least
one flag changed (the source's `update_pvm` boolean, the second fold
component), enqueue a single PVM frame built from the updated ports. -/
def pvm (s : SBrickState) (objs : List (Fin 4 × Bool)) : SBrickState :=
  if (objs.foldl pvmStep (s.ports, false)).2 then
    { ports := (objs.foldl pvmStep (s.ports, false)).1
      pending :=
        s.pending ++ [.rawOp (pvmCommand (objs.foldl pvmStep (s.ports, false)).1)] }
  else
    { s with ports := (objs.foldl pvmStep (s.ports, false)).1 }

/-- The caller-supplied argument object of `drive`; `none` models a missing
(`undefined`) property. -/
structure DriveArgs where
  portId : Option (Fin 4)
  direction : Option Int
  power : Option Int

/-- The rejection message built by `drive`'s validation promise (note the
source appends `' power'` with its leading space in every power branch). -/
def driveErrorMsg (a : DriveArgs) : String :=
  "Wrong input: please specify "
    ++ (if a.portId = none then "portId" else "")
    ++ (if a.power = none then
          (if a.portId = none then " and" else "") ++ " power"
        else "")

/-- `drive(portObj)`: reject when `portId` or `power` is missing (the
direction presence check never fires because a missing direction already
defaulted to `CLOCKWISE`); otherwise run the `_pvm` step with
`pvmActive := false`, store the clamped power and coerced direction in the
port record, and — only when the port is not busy — mark it busy and enqueue
one drive operation. -/
def drive (s : SBrickState) (a : DriveArgs) : Except String SBrickState :=
  match a.portId, a.power with
  | some portId, some power =>
      let s1 := pvm s [(portId, false)]
      let p1 := { s1.ports portId with
                    power := clampPower power
                    direction := coerceDirection a.direction }
      if p1.busy then
        .ok { s1 with ports := Function.update s1.ports portId p1 }
      else
        .ok { ports := Function.update s1.ports portId { p1 with busy := true }
              pending := s1.pending ++ [.driveOp portId] }
  | _, _ => .error (driveErrorMsg a)

/-- Clear every port's busy flag (start of the quickDrive queue callback). -/
def clearAllBusy (ports : Fin 4 → Port) : Fin 4 → Port :=
  fun i => { ports i with busy := false }

/-- The quickDrive byte of one port.  For an Output port the source computes
`parseInt(parseInt(port.power/MAX*MAX_QD).toString(2) + port.direction, 2)`:
the binary digits of the truncated rescaled power with the direction digit
appended, i.e. `2 * (power * 127 / 255) + direction` (the stored direction
is always 0 or 1).  An Input port contributes `null`, which `Uint8Array`
stores as the byte 0. -/
def quickDriveByte (p : Port) : Nat :=
  if p.mode = .output then 2 * (p.power * MAX_QD / MAX) + p.direction else 0

/-- Run one queued operation against the current state, returning the updated
state and the byte frame written to the characteristic.  A drive operation
clears its port's busy flag and reads the port record at execution time; the
quickDrive operation clears all busy flags and packs one byte per port in
index order 0..3; a raw operation writes its captured bytes unchanged. -/
def execOp (s : SBrickState) (op : PendingOp) : SBrickState × List Nat :=
  match op with
  | .driveOp portId =>
      let p := s.ports portId
      ({ s with ports := Function.update s.ports portId { p with busy := false } },
       [CMD_DRIVE, portHexId portId, p.direction, p.power])
  | .quickDriveOp =>
      ({ s with ports := clearAllBusy s.ports },
       (List.finRange 4).map (fun i => quickDriveByte (s.ports i)))
  | .rawOp frame => (s, frame)

/-- One element of the array passed to `quickDrive` (the deprecated `port`
property spelling is identified with `portId`). -/
structure QuickDriveArg where
  portId : Fin 4
  direction : Option Int
  power : Int

/-- The first forEach of `quickDrive`: for every listed port store the
clamped power and coerced direction. -/
def qdUpdatePorts (ports : Fin 4 → Port) (args : List QuickDriveArg) :
    Fin 4 → Port :=
  args.foldl
    (fun ps a =>
      Function.update ps a.portId
        { ps a.portId with
            power := clampPower a.power
            direction := coerceDirection a.direction })
    ports

/-- `_allPortsAreIdle()`: no port is busy. -/
def allPortsAreIdle (ports : Fin 4 → Port) : Bool :=
  (List.finRange 4).all (fun i => !(ports i).busy)

/-- `_setAllPortsBusy()`. -/
def setAllPortsBusy (ports : Fin 4 → Port) : Fin 4 → Port :=
  fun i => { ports i with busy := true }

/-- `quickDrive(portObjs)`: store every listed port's clamped power and
coerced direction; then, only when all four ports are idle, mark all four
busy and enqueue one quickDrive operation. -/
def quickDrive (s : SBrickState) (args : List QuickDriveArg) : SBrickState :=
  let ports1 := qdUpdatePorts s.ports args
  if allPortsAreIdle ports1 then
    { ports := setAllPortsBusy ports1, pending := s.pending ++ [.quickDriveOp] }
  else
    { s with ports := ports1 }

/-- The `_pvm` argument list built by `stop`'s first stage: a requested port
keeps `pvmActive := true` unless its mode is Input. -/
def stopPvmObjs (s : SBrickState) (portIds : List (Fin 4)) :
    List (Fin 4 × Bool) :=
  portIds.map
    (fun pid => (pid, if (s.ports pid).mode = Mode.input then false else true))

/-- One iteration of `stop`'s second forEach: an Output port has its power
zeroed and its hardware id appended to the break command under
construction; an Input port is skipped. -/
def stopZeroStep (acc : (Fin 4 → Port) × List Nat) (pid : Fin 4) :
    (Fin 4 → Port) × List Nat :=
  if (acc.1 pid).mode = Mode.output then
    (Function.update acc.1 pid { acc.1 pid with power := 0 },
     acc.2 ++ [portHexId pid])
  else acc

/-- `stop(portIds)` (after normalising a single id to a one-element array):
run the `_pvm` stage, zero every requested Output port's power collecting
its hardware id, and enqueue the break frame `[CMD_BREAK, id0, id1, ...]`
only when at least one id was collected (`command.length > 1`). -/
def stop (s : SBrickState) (portIds : List (Fin 4)) : SBrickState :=
  let s1 := pvm s (stopPvmObjs s portIds)
  let r := portIds.foldl stopZeroStep (s1.ports, [])
  let command := CMD_BREAK :: r.2
  if command.length > 1 then
    { ports := r.1, pending := s1.pending ++ [.rawOp command] }
  else
    { s1 with ports := r.1 }

/-- The keepalive interval: running until cleared. -/
inductive KeepaliveState where
  | running
  | stopped
deriving DecidableEq, Repr

/-- One tick of the `_keepalive` interval callback: when the connection is
gone, clear the interval (and log) without touching the queue; otherwise,
when the queue is empty, enqueue the temperature ADC probe
`[CMD_ADC, CMD_ADC_TEMP]`; otherwise do nothing. -/
def keepaliveTick (connected : Bool) (s : SBrickState) :
    KeepaliveState × SBrickState :=
  if !connected then
    (.stopped, s)
  else if s.pending.length = 0 then
    (.running, { s with pending := s.pending ++ [.rawOp [CMD_ADC, CMD_ADC_TEMP]] })
  else
    (.running, s)

/-- What the firmware gate of `connect` did. -/
structure ConnectOutcome where
  keepaliveStarted : Bool
  errorReported : Bool
  disconnectCalled : Bool
deriving DecidableEq, Repr

/-- The firmware-compatibility gate inside `connect`:
`if (parseFloat(version) >= FIRMWARE_COMPATIBILITY)` start the keepalive,
`else { this._error(...); this.disconnect(); }`.  `_error` throws unless
debug mode is on, so the `disconnect()` call after it is reached only in
debug mode; with the constructor default `_debug = false` the error
propagates as a rejection and the connection is left up. -/
def firmwareCheck (version : ℚ) (debugMode : Bool) : ConnectOutcome :=
  if FIRMWARE_COMPATIBILITY ≤ version then
    { keepaliveStarted := true, errorReported := false, disconnectCalled := false }
  else if debugMode then
    { keepaliveStarted := false, errorReported := true, disconnectCalled := true }
  else
    { keepaliveStarted := false, errorReported := true, disconnectCalled := false }

/-- `_volt()`: decode the little-endian signed 16-bit ADC reading into volts,
`volt * 0.83875 / 2047.0`. -/
def voltDecode (raw : Int) : ℚ :=
  raw * 0.83875 / 2047.0

/-- The percent step of `getBattery`:
`parseInt(Math.abs(volt / MAX_VOLT * 100))` — truncation toward zero of a
nonnegative number, i.e. the floor of the absolute value. -/
def batteryPercent (volt : ℚ) : Int :=
  ⌊|volt / MAX_VOLT * 100|⌋

/-- `getBattery()`: decode the raw ADC voltage reading and convert to a
battery percentage. -/
def getBattery (raw : Int) : Int :=
  batteryPercent (voltDecode raw)

/-- Whether a pending operation is the drive operation of the given port. -/
def isDriveOpFor (p : Fin 4) (op : PendingOp) : Bool :=
  op == PendingOp.driveOp p

/-- How many drive operations for the given port are pending in the queue. -/
def driveCount (p : Fin 4) (l : List PendingOp) : Nat :=
  (l.filter (isDriveOpFor p)).length

/-- Whether a pending operation is a break frame (opcode `CMD_BREAK`). -/
def isBreakOp : PendingOp → Bool
  | .rawOp (b :: _) => b == CMD_BREAK
  | _ => false

/-- The scheduler/busy-flag invariant: a port that is not busy has no
pending drive operation, and a busy port has at most one. -/
def BusyInv (s : SBrickState) : Prop :=
  ∀ q : Fin 4, driveCount q s.pending ≤ if (s.ports q).busy then 1 else 0

instance (s : SBrickState) : Decidable (BusyInv s) := by
  unfold BusyInv; infer_instance

/-- A state with port 0 busy and its drive operation pending (as right after
a first `drive` call on port 0 from the initial state). -/
def busyDemoState : SBrickState :=
  { ports := Function.update (fun _ => initPort) 0 { initPort with busy := true }
    pending := [PendingOp.driveOp 0] }

/-- A state whose port 0 is a sensor port: Input mode with periodic voltage
measurement active (as right after `getSensor(0)` settled). -/
def inputPvmState : SBrickState :=
  { ports :=
      Function.update (fun _ => initPort) 0
        { initPort with mode := Mode.input, pvmActive := true }
    pending := [] }

/-! Helper lemmas. -/

/-- Combining a 7-bit value shifted left by one with a low bit is the same
as doubling and adding the bit. -/
theorem shiftLeft_one_lor (v d : Nat) (hd : d ≤ 1) :
    (v <<< 1) ||| d = 2 * v + d := by
  interval_cases d
  · simp [Nat.shiftLeft_eq, Nat.mul_comm]
  · have h := Nat.lor_bit false v true 0
    simpa [Nat.bit, Nat.shiftLeft_eq, Nat.mul_comm] using h

/-- `pvmStep` changes at most the `pvmActive` field of any port. -/
theorem pvmStep_fst_proj (acc : (Fin 4 → Port) × Bool) (obj : Fin 4 × Bool)
    (i : Fin 4) :
    ((pvmStep acc obj).1 i).busy = (acc.1 i).busy ∧
    ((pvmStep acc obj).1 i).power = (acc.1 i).power ∧
    ((pvmStep acc obj).1 i).direction = (acc.1 i).direction ∧
    ((pvmStep acc obj).1 i).mode = (acc.1 i).mode := by
  unfold pvmStep
  split
  · by_cases h : i = obj.1
    · subst h; simp [Function.update_apply]
    · simp [Function.update_apply, h]
  · exact ⟨rfl, rfl, rfl, rfl⟩

/-- Folding `pvmStep` over any request list changes at most `pvmActive`. -/
theorem pvmFold_proj (objs : List (Fin 4 × Bool)) :
    ∀ (acc : (Fin 4 → Port) × Bool) (i : Fin 4),
      (((objs.foldl pvmStep acc).1 i).busy = (acc.1 i).busy ∧
       ((objs.foldl pvmStep acc).1 i).power = (acc.1 i).power ∧
       ((objs.foldl pvmStep acc).1 i).direction = (acc.1 i).direction ∧
       ((objs.foldl pvmStep acc).1 i).mode = (acc.1 i).mode) := by
  induction objs with
  | nil => intro acc i; exact ⟨rfl, rfl, rfl, rfl⟩
  | cons o t ih =>
      intro acc i
      rw [List.foldl_cons]
      obtain ⟨h1, h2, h3, h4⟩ := ih (pvmStep acc o) i
      obtain ⟨g1, g2, g3, g4⟩ := pvmStep_fst_proj acc o i
      exact ⟨h1.trans g1, h2.trans g2, h3.trans g3, h4.trans g4⟩

/-- `_pvm` changes at most the `pvmActive` field of any port. -/
theorem pvm_ports_proj (s : SBrickState) (objs : List (Fin 4 × Bool))
    (i : Fin 4) :
    ((pvm s objs).ports i).busy = (s.ports i).busy ∧
    ((pvm s objs).ports i).power = (s.ports i).power ∧
    ((pvm s objs).ports i).direction = (s.ports i).direction ∧
    ((pvm s objs).ports i).mode = (s.ports i).mode := by
  unfold pvm
  split
  · exact pvmFold_proj objs (s.ports, false) i
  · exact pvmFold_proj objs (s.ports, false) i

/-- `_pvm` either leaves the queue unchanged or appends one PVM frame. -/
theorem pvm_pending_cases (s : SBrickState) (objs : List (Fin 4 × Bool)) :
    (pvm s objs).pending = s.pending ∨
    ∃ ps, (pvm s objs).pending = s.pending ++ [PendingOp.rawOp (pvmCommand ps)] := by
  unfold pvm
  split
  · right; exact ⟨_, rfl⟩
  · left; rfl

theorem driveCount_append (p : Fin 4) (l1 l2 : List PendingOp) :
    driveCount p (l1 ++ l2) = driveCount p l1 + driveCount p l2 := by
  simp [driveCount, List.filter_append]

theorem driveCount_rawOp (p : Fin 4) (f : List Nat) :
    driveCount p [PendingOp.rawOp f] = 0 := by
  simp [driveCount, isDriveOpFor]

/-- `_pvm` never enqueues a drive operation. -/
theorem driveCount_pvm (s : SBrickState) (objs : List (Fin 4 × Bool))
    (p : Fin 4) :
    driveCount p (pvm s objs).pending = driveCount p s.pending := by
  rcases pvm_pending_cases s objs with h | ⟨ps, h⟩
  · rw [h]
  · rw [h, driveCount_append, driveCount_rawOp, Nat.add_zero]

/-- A PVM frame is not a break frame. -/
theorem isBreakOp_pvmCommand (ps : Fin 4 → Port) :
    isBreakOp (PendingOp.rawOp (pvmCommand ps)) = false := rfl

theorem allPortsAreIdle_iff (ps : Fin 4 → Port) :
    allPortsAreIdle ps = true ↔ ∀ i, (ps i).busy = false := by
  simp [allPortsAreIdle, List.all_eq_true, List.mem_finRange]

/-- The first forEach of `quickDrive` does not touch busy flags. -/
theorem qdUpdatePorts_busy (args : List QuickDriveArg) :
    ∀ (ps : Fin 4 → Port) (i : Fin 4),
      (qdUpdatePorts ps args i).busy = (ps i).busy := by
  induction args with
  | nil => intro ps i; rfl
  | cons a t ih =>
      intro ps i
      unfold qdUpdatePorts at ih ⊢
      rw [List.foldl_cons]
      rw [ih]
      by_cases h : i = a.portId
      · subst h; simp [Function.update_apply]
      · simp [Function.update_apply, h]

theorem coerceDirection_le_one (d : Option Int) : coerceDirection d ≤ 1 := by
  cases d with
  | none => simp [coerceDirection, CLOCKWISE]
  | some v =>
      by_cases h : v = 0 <;>
        simp [coerceDirection, h, CLOCKWISE, COUNTERCLOCKWISE]

/-- The first forEach of `quickDrive` keeps every direction field at most 1
when it was so before. -/
theorem qdUpdatePorts_direction_le (args : List QuickDriveArg) :
    ∀ (ps : Fin 4 → Port), (∀ i, (ps i).direction ≤ 1) →
      ∀ i, (qdUpdatePorts ps args i).direction ≤ 1 := by
  induction args with
  | nil => intro ps h i; exact h i
  | cons a t ih =>
      intro ps h i
      unfold qdUpdatePorts at ih ⊢
      rw [List.foldl_cons]
      apply ih
      intro j
      by_cases hj : j = a.portId
      · subst hj; simp [Function.update_apply, coerceDirection_le_one]
      · simp [Function.update_apply, hj]; exact h j

theorem allPortsAreIdle_qdUpdate (ps : Fin 4 → Port)
    (args : List QuickDriveArg) :
    allPortsAreIdle (qdUpdatePorts ps args) = allPortsAreIdle ps := by
  rw [Bool.eq_iff_iff, allPortsAreIdle_iff, allPortsAreIdle_iff]
  simp only [qdUpdatePorts_busy]

/-! Claim theorems. -/

/-- C3: for every power input `p` supplied to `drive` or `quickDrive`,
including negative and out-of-range values, the power stored in the port
record is `min(max(|p|,0),255)`: magnitude before clamping, so `-40` stores
`40`, `999` stores `255` and `0` stores `0`. -/
theorem drive_power_clamp (s : SBrickState) (p : Fin 4) (d : Option Int)
    (pw : Int) :
    (drive s ⟨some p, d, some pw⟩).toOption.map (fun t => (t.ports p).power) =
      some (min (max pw.natAbs 0) 255) ∧
    ((quickDrive s [⟨p, d, pw⟩]).ports p).power = min (max pw.natAbs 0) 255 ∧
    clampPower (-40) = 40 ∧ clampPower 999 = 255 ∧ clampPower 0 = 0 := by
  refine ⟨?_, ?_, by decide, by decide, by decide⟩
  · simp only [drive]
    split <;> simp [Except.toOption, Function.update_apply, clampPower, MIN, MAX]
  · simp only [quickDrive, qdUpdatePorts, List.foldl_cons, List.foldl_nil]
    split <;>
      simp [setAllPortsBusy, Function.update_apply, clampPower, MIN, MAX]

/-- C6: while the keepalive timer runs, a tick does exactly one of three
things: connection gone — the interval transitions to stopped and nothing is
submitted; queue empty — exactly the temperature ADC probe
`[CMD_ADC, CMD_ADC_TEMP]` = `[0x0F, 0x09]` is submitted; queue non-empty —
nothing is submitted. -/
theorem keepaliveTick_cases (connected : Bool) (s : SBrickState) :
    (connected = false →
      keepaliveTick connected s = (KeepaliveState.stopped, s)) ∧
    (connected = true → s.pending = [] →
      keepaliveTick connected s =
        (KeepaliveState.running,
         { s with pending := s.pending ++ [PendingOp.rawOp [0x0F, 0x09]] })) ∧
    (connected = true → s.pending ≠ [] →
      keepaliveTick connected s = (KeepaliveState.running, s)) := by
  refine ⟨?_, ?_, ?_⟩
  · intro h; subst h; simp [keepaliveTick]
  · intro h hq; subst h
    simp [keepaliveTick, hq, CMD_ADC, CMD_ADC_TEMP]
  · intro h hq; subst h
    simp [keepaliveTick, List.length_eq_zero, hq]

/-- C6 witness: a tick with the connection gone stops the interval without
touching the queue. -/
theorem keepaliveTick_cases_witness :
    keepaliveTick false initState = (KeepaliveState.stopped, initState) :=
  (keepaliveTick_cases false initState).1 rfl

/-- C7: the firmware gate of `connect`, evaluated on a device reporting
version 4.10 and on one reporting 4.17.  Below 4.17 the keepalive is not
started and the incompatibility error is reported, but with the
constructor-default `debug = false` the teardown `disconnect()` is never
reached because `_error` throws first; only in debug mode is the connection
torn down. -/
theorem firmwareCheck_gate :
    firmwareCheck 4.10 false =
      { keepaliveStarted := false, errorReported := true
        disconnectCalled := false } ∧
    firmwareCheck 4.10 true =
      { keepaliveStarted := false, errorReported := true
        disconnectCalled := true } ∧
    firmwareCheck 4.17 false =
      { keepaliveStarted := true, errorReported := false
        disconnectCalled := false } := by
  refine ⟨?_, ?_, ?_⟩ <;> norm_num [firmwareCheck, FIRMWARE_COMPATIBILITY]

/-- C8 counterexample: at the raw ADC reading 20990 (volts about 8.6005)
`getBattery` returns 95 while the claimed `round(|volts / 9| * 100)` is 96:
the code truncates with `parseInt`, it does not round. -/
theorem getBattery_round_counterexample :
    getBattery 20990 = 95 ∧
    round (|voltDecode 20990 / MAX_VOLT| * 100) = 96 ∧
    getBattery 20990 ≠ round (|voltDecode 20990 / MAX_VOLT| * 100) := by
  have h1 : getBattery 20990 = 95 := by
    norm_num [getBattery, batteryPercent, voltDecode, MAX_VOLT]
    rw [abs_of_nonneg (by norm_num)]
    rw [Int.floor_eq_iff]
    all_goals norm_num
  have h2 : round (|voltDecode 20990 / MAX_VOLT| * 100) = 96 := by
    rw [round_eq]
    norm_num [voltDecode, MAX_VOLT]
    rw [abs_of_nonneg (by norm_num)]
    rw [Int.floor_eq_iff]
    all_goals norm_num
  exact ⟨h1, h2, by rw [h1, h2]; decide⟩

/-- C8 amended: `getBattery` returns the truncation (floor of the absolute
value) of `volts / 9 * 100`, with volts decoded from the raw signed 16-bit
reading as `raw * 0.83875 / 2047.0`; volts = 8.39 yields 93 percent and
raw = 2047 yields exactly 0.83875 V. -/
theorem getBattery_truncates (volt : ℚ) (raw : Int) :
    batteryPercent volt = ⌊|volt / MAX_VOLT| * 100⌋ ∧
    getBattery raw = ⌊|voltDecode raw / MAX_VOLT| * 100⌋ ∧
    voltDecode 2047 = 0.83875 ∧
    batteryPercent 8.39 = 93 := by
  have key : ∀ v : ℚ, batteryPercent v = ⌊|v / MAX_VOLT| * 100⌋ := by
    intro v
    unfold batteryPercent
    congr 1
    rw [abs_mul]
    norm_num
  refine ⟨key volt, key (voltDecode raw), by norm_num [voltDecode], ?_⟩
  · norm_num [batteryPercent, MAX_VOLT]
    rw [abs_of_nonneg (by norm_num)]
    rw [Int.floor_eq_iff]
    all_goals norm_num

/-- C9 counterexample: a `drive` call with power 999 (outside [0,255]) is
not rejected: it succeeds, stores the clamped power 255 and enqueues a drive
frame. -/
theorem drive_out_of_range_power_accepted :
    (drive initState ⟨some 0, some 0, some 999⟩).toOption.map
        (fun t => (t.pending, (t.ports 0).power)) =
      some ([PendingOp.driveOp 0], 255) := by decide

/-- C9 amended: `drive` rejects synchronously (returning the error without
touching state or queue) exactly when `portId` or `power` is missing;
out-of-range powers are clamped rather than rejected and any direction value
is coerced to one of the two enumerators rather than rejected. -/
theorem drive_validation (s : SBrickState) (a : DriveArgs) :
    ((a.portId = none ∨ a.power = none) →
      drive s a = Except.error (driveErrorMsg a)) ∧
    (∀ p pw, a.portId = some p → a.power = some pw →
      ∃ s1, drive s a = Except.ok s1 ∧
        (s1.ports p).power = clampPower pw ∧
        (s1.ports p).direction = coerceDirection a.direction) := by
  obtain ⟨pid, dir, pow⟩ := a
  constructor
  · rintro (h | h) <;> subst h
    · rfl
    · cases pid <;> rfl
  · rintro p pw rfl rfl
    simp only [drive]
    split
    · exact ⟨_, rfl, by simp [Function.update_apply], by simp [Function.update_apply]⟩
    · exact ⟨_, rfl, by simp [Function.update_apply], by simp [Function.update_apply]⟩

/-- C9 witness: a call with a missing portId is rejected with the
wrong-input message. -/
theorem drive_validation_witness :
    drive initState ⟨none, some 0, some 10⟩ =
      Except.error (driveErrorMsg ⟨none, some 0, some 10⟩) :=
  (drive_validation initState ⟨none, some 0, some 10⟩).1 (Or.inl rfl)

/-- C10: every enqueued drive operation, executed against the state the call
produced, writes the frame `[0x01, portHexId, direction, power]` where the
direction byte is the coercion of the caller's direction (truthy gives 1 =
counterclockwise, falsy or omitted gives 0 = clockwise) and the power byte
is at most 255. -/
theorem drive_frame_wellformed (s : SBrickState) (p : Fin 4) (d : Option Int)
    (pw : Int) :
    (drive s ⟨some p, d, some pw⟩).toOption.map
        (fun t => (execOp t (PendingOp.driveOp p)).2) =
      some [CMD_DRIVE, portHexId p, coerceDirection d, clampPower pw] ∧
    (coerceDirection d = CLOCKWISE ∨ coerceDirection d = COUNTERCLOCKWISE) ∧
    (∀ v, d = some v → v ≠ 0 → coerceDirection d = COUNTERCLOCKWISE) ∧
    ((d = none ∨ d = some 0) → coerceDirection d = CLOCKWISE) ∧
    clampPower pw ≤ 255 := by
  refine ⟨?_, ?_, ?_, ?_, ?_⟩
  · simp only [drive]
    split <;> simp [Except.toOption, execOp, Function.update_apply]
  · cases d with
    | none => exact Or.inl rfl
    | some v =>
        by_cases h : v = 0
        · exact Or.inl (by simp [coerceDirection, h])
        · exact Or.inr (by simp [coerceDirection, h])
  · rintro v rfl hv; simp [coerceDirection, hv]
  · rintro (rfl | rfl) <;> simp [coerceDirection, CLOCKWISE]
  · exact Nat.min_le_right _ _

/-- C10 witness: a truthy direction input (7) is coerced to the
counterclockwise byte 1. -/
theorem drive_frame_wellformed_witness :
    coerceDirection (some 7) = COUNTERCLOCKWISE :=
  (drive_frame_wellformed initState 0 (some 7) 0).2.2.1 7 rfl (by decide)

/-- C5: `quickDrive` is all-or-nothing: if any of the four ports is busy the
invocation enqueues no quick-drive operation; if all four are idle, all four
are marked busy and exactly one quick-drive operation is enqueued. -/
theorem quickDrive_all_or_nothing (s : SBrickState)
    (args : List QuickDriveArg) :
    ((∃ i : Fin 4, (s.ports i).busy = true) →
      (quickDrive s args).pending = s.pending) ∧
    ((∀ i : Fin 4, (s.ports i).busy = false) →
      (quickDrive s args).pending = s.pending ++ [PendingOp.quickDriveOp] ∧
      ∀ i : Fin 4, ((quickDrive s args).ports i).busy = true) := by
  constructor
  · rintro ⟨i, hi⟩
    have hfalse : allPortsAreIdle (qdUpdatePorts s.ports args) = false := by
      rw [allPortsAreIdle_qdUpdate]
      rcases Bool.eq_false_or_eq_true (allPortsAreIdle s.ports) with h | h
      · exact absurd hi (by rw [(allPortsAreIdle_iff s.ports).mp h i]; decide)
      · exact h
    simp [quickDrive, hfalse]
  · intro hidle
    have htrue : allPortsAreIdle (qdUpdatePorts s.ports args) = true := by
      rw [allPortsAreIdle_qdUpdate]
      exact (allPortsAreIdle_iff s.ports).mpr hidle
    refine ⟨by simp [quickDrive, htrue], fun i => ?_⟩
    simp [quickDrive, htrue, setAllPortsBusy]

/-- C5 witness: with port 0 busy, a `quickDrive` call enqueues nothing. -/
theorem quickDrive_all_or_nothing_witness :
    (quickDrive busyDemoState []).pending = busyDemoState.pending :=
  (quickDrive_all_or_nothing busyDemoState []).1 ⟨0, by decide⟩

/-- C2 counterexample: `stop([0])` with port 0 in Input mode and periodic
voltage measurement active produces a wire frame — the PVM-toggle frame
`[CMD_PVM]` — so a stop whose targets are all Input-mode ports does not
always produce "no wire frame at all" (it does produce no break frame, and
the port's power is untouched). -/
theorem stop_input_mode_wire_frame_counterexample :
    (inputPvmState.ports 0).mode = Mode.input ∧
    (stop inputPvmState [0]).pending = [PendingOp.rawOp [CMD_PVM]] ∧
    (stop inputPvmState [0]).pending ≠ ([] : List PendingOp) ∧
    ((stop inputPvmState [0]).ports 0).power = (inputPvmState.ports 0).power := by
  decide

/-- C4: a `drive` call on a port whose busy flag is set enqueues no second
drive operation for that port — it only updates the stored power and
direction, which the already-pending drive operation will carry when it
executes — and the at-most-one-pending-drive-per-port invariant is
preserved. -/
theorem drive_busy_coalesces (s : SBrickState) (p : Fin 4) (d : Option Int)
    (pw : Int) (hbusy : (s.ports p).busy = true) (hinv : BusyInv s) :
    ∃ s1, drive s ⟨some p, d, some pw⟩ = Except.ok s1 ∧
      driveCount p s1.pending = driveCount p s.pending ∧
      driveCount p s1.pending ≤ 1 ∧
      (s1.ports p).power = clampPower pw ∧
      (s1.ports p).direction = coerceDirection d ∧
      (execOp s1 (PendingOp.driveOp p)).2 =
        [CMD_DRIVE, portHexId p, coerceDirection d, clampPower pw] ∧
      BusyInv s1 := by
  have hbusy1 : ((pvm s [(p, false)]).ports p).busy = true := by
    rw [(pvm_ports_proj s [(p, false)] p).1]; exact hbusy
  have hbusy2 :
      ({ (pvm s [(p, false)]).ports p with
           power := clampPower pw
           direction := coerceDirection d } : Port).busy = true := hbusy1
  refine ⟨{ pvm s [(p, false)] with
            ports := Function.update (pvm s [(p, false)]).ports p
              { (pvm s [(p, false)]).ports p with
                  power := clampPower pw
                  direction := coerceDirection d } }, ?_, ?_, ?_, ?_, ?_, ?_, ?_⟩
  · simp only [drive]
    rw [if_pos hbusy2]
  · simp [driveCount_pvm]
  · rw [driveCount_pvm]
    have := hinv p
    rwa [hbusy, if_pos rfl] at this
  · simp [Function.update_apply]
  · simp [Function.update_apply]
  · simp [execOp, Function.update_apply]
  · intro q
    rw [driveCount_pvm]
    have hq := hinv q
    by_cases h : q = p
    · subst h
      simpa [Function.update_apply, hbusy1, hbusy] using hq
    · simpa [Function.update_apply, h, (pvm_ports_proj s [(p, false)] q).1] using hq

/-- C4 witness: a second drive call on busy port 0 updates its record but
leaves exactly the one pending drive operation. -/
theorem drive_busy_coalesces_witness :
    (busyDemoState.ports 0).busy = true ∧ BusyInv busyDemoState ∧
    ∃ s1, drive busyDemoState ⟨some 0, some 1, some 40⟩ = Except.ok s1 ∧
      driveCount 0 s1.pending = driveCount 0 busyDemoState.pending ∧
      driveCount 0 s1.pending ≤ 1 ∧
      (s1.ports 0).power = clampPower 40 ∧
      (s1.ports 0).direction = coerceDirection (some 1) ∧
      (execOp s1 (PendingOp.driveOp 0)).2 =
        [CMD_DRIVE, portHexId 0, coerceDirection (some 1), clampPower 40] ∧
      BusyInv s1 :=
  ⟨by decide, by decide,
   drive_busy_coalesces busyDemoState 0 (some 1) 40 (by decide) (by decide)⟩

/-- C1: a `quickDrive` invocation made while all four ports are idle
enqueues one quick-drive operation whose frame has exactly 4 bytes, one per
port in index order 0..3; an Output-mode port contributes the byte
`((power * 127 / 255) <<< 1) ||| direction` (power rescaled from 0-255 to
0-127 truncating toward zero, direction as the low bit) and an Input-mode
port contributes the no-op byte 0.  In particular ports 0 and 1 driven
clockwise at power 255 from the initial state yield `[254, 254, 0, 0]`. -/
theorem quickDrive_frame_bytes (s : SBrickState) (args : List QuickDriveArg)
    (hidle : allPortsAreIdle s.ports = true)
    (hdir : ∀ i : Fin 4, (s.ports i).direction ≤ 1) :
    (quickDrive s args).pending = s.pending ++ [PendingOp.quickDriveOp] ∧
    (execOp (quickDrive s args) PendingOp.quickDriveOp).2.length = 4 ∧
    (execOp (quickDrive s args) PendingOp.quickDriveOp).2 =
      (List.finRange 4).map (fun i =>
        if ((quickDrive s args).ports i).mode = Mode.output then
          ((((quickDrive s args).ports i).power * 127 / 255) <<< 1) |||
            ((quickDrive s args).ports i).direction
        else 0) ∧
    (execOp (quickDrive initState [⟨0, some 0, 255⟩, ⟨1, some 0, 255⟩])
        PendingOp.quickDriveOp).2 = [254, 254, 0, 0] := by
  have htrue : allPortsAreIdle (qdUpdatePorts s.ports args) = true := by
    rw [allPortsAreIdle_qdUpdate]; exact hidle
  have hdir1 : ∀ i : Fin 4, ((quickDrive s args).ports i).direction ≤ 1 := by
    intro i
    simp only [quickDrive, htrue, if_true, setAllPortsBusy]
    exact qdUpdatePorts_direction_le args s.ports hdir i
  refine ⟨by simp [quickDrive, htrue], ?_, ?_, by decide⟩
  · simp [execOp]
  · simp only [execOp]
    apply List.map_congr_left
    intro i _
    unfold quickDriveByte
    split
    · rw [shiftLeft_one_lor _ _ (hdir1 i)]
      simp [MAX_QD, MAX]
    · rfl

/-- C1 witness: the regression scenario itself discharges the idle
hypotheses: the frame is enqueued from the initial state. -/
theorem quickDrive_frame_bytes_witness :
    allPortsAreIdle initState.ports = true ∧
    (∀ i : Fin 4, (initState.ports i).direction ≤ 1) ∧
    (quickDrive initState [⟨0, some 0, 255⟩, ⟨1, some 0, 255⟩]).pending =
      initState.pending ++ [PendingOp.quickDriveOp] :=
  ⟨by decide, by decide,
   (quickDrive_frame_bytes initState [⟨0, some 0, 255⟩, ⟨1, some 0, 255⟩]
      (by decide) (by decide)).1⟩

/-- The second forEach of `stop`: the fold preserves every mode, leaves
Input-mode ports untouched, zeroes the power of every requested Output
port, and appends exactly the hardware ids of the requested Output ports
(in request order) to the command under construction. -/
theorem stopZeroFold (portIds : List (Fin 4)) :
    ∀ (ps : Fin 4 → Port) (ids : List Nat),
      (∀ i, ((portIds.foldl stopZeroStep (ps, ids)).1 i).mode = (ps i).mode) ∧
      ((portIds.foldl stopZeroStep (ps, ids)).2 =
        ids ++ (portIds.filter
          (fun p => decide ((ps p).mode = Mode.output))).map portHexId) ∧
      (∀ i, (ps i).mode = Mode.input →
        (portIds.foldl stopZeroStep (ps, ids)).1 i = ps i) ∧
      (∀ i, i ∈ portIds → (ps i).mode = Mode.output →
        ((portIds.foldl stopZeroStep (ps, ids)).1 i).power = 0) ∧
      (∀ i, i ∉ portIds → (portIds.foldl stopZeroStep (ps, ids)).1 i = ps i) := by
  induction portIds with
  | nil =>
      intro ps ids
      refine ⟨fun i => rfl, by simp, fun i _ => rfl, by simp, fun i _ => rfl⟩
  | cons q t ih =>
      intro ps ids
      rw [List.foldl_cons]
      by_cases hq : (ps q).mode = Mode.output
      · have hstep : stopZeroStep (ps, ids) q =
            (Function.update ps q { ps q with power := 0 },
             ids ++ [portHexId q]) := by
          simp [stopZeroStep, hq]
        rw [hstep]
        obtain ⟨m1, m2, m3, m4, m5⟩ :=
          ih (Function.update ps q { ps q with power := 0 }) (ids ++ [portHexId q])
        have hmode : ∀ i,
            (Function.update ps q { ps q with power := 0 } i).mode = (ps i).mode := by
          intro i
          by_cases h : i = q
          · subst h; simp [Function.update_apply]
          · simp [Function.update_apply, h]
        refine ⟨?_, ?_, ?_, ?_, ?_⟩
        · intro i; rw [m1 i, hmode i]
        · rw [m2]
          have hfeq :
              t.filter (fun p =>
                decide ((Function.update ps q { ps q with power := 0 } p).mode
                  = Mode.output)) =
              t.filter (fun p => decide ((ps p).mode = Mode.output)) := by
            apply List.filter_congr
            intro a _
            rw [hmode a]
          rw [hfeq, List.filter_cons_of_pos (by simp [hq]), List.map_cons,
            List.append_assoc]
          rfl
        · intro i hi
          have hiq : i ≠ q := by
            rintro rfl
            rw [hi] at hq
            cases hq
          rw [m3 i (by rw [hmode i]; exact hi)]
          simp [Function.update_apply, hiq]
        · intro i hi hmi
          rcases List.mem_cons.mp hi with h | h
          · subst h
            by_cases hit : i ∈ t
            · exact m4 i hit (by rw [hmode i]; exact hmi)
            · rw [m5 i hit]
              simp [Function.update_apply]
          · exact m4 i h (by rw [hmode i]; exact hmi)
        · intro i hi
          have h1 : i ∉ t := fun h => hi (List.mem_cons_of_mem _ h)
          have h2 : i ≠ q := fun h => hi (by rw [h]; exact List.mem_cons_self _ _)
          rw [m5 i h1]
          simp [Function.update_apply, h2]
      · have hstep : stopZeroStep (ps, ids) q = (ps, ids) := by
          simp [stopZeroStep, hq]
        rw [hstep]
        obtain ⟨m1, m2, m3, m4, m5⟩ := ih ps ids
        refine ⟨m1, ?_, m3, ?_, ?_⟩
        · rw [m2, List.filter_cons_of_neg (by simp [hq])]
        · intro i hi hmi
          rcases List.mem_cons.mp hi with h | h
          · subst h; exact absurd hmi hq
          · exact m4 i h hmi
        · intro i hi
          exact m5 i (fun h => hi (List.mem_cons_of_mem _ h))

/-- C2 amended: a `stop(portIds)` call leaves the stored power of every
requested Input-mode port unchanged, zeroes the stored power of every
requested Output-mode port, and enqueues a break frame
`[CMD_BREAK, id0, id1, ...]` carrying exactly the requested Output-mode
hardware ids if and only if at least one requested port is in Output mode
(when no requested port is in Output mode, no break frame is enqueued —
though the call may still enqueue a PVM-toggle frame). -/
theorem stop_break_frame_iff (s : SBrickState) (portIds : List (Fin 4)) :
    (∀ p ∈ portIds, (s.ports p).mode = Mode.input →
      ((stop s portIds).ports p).power = (s.ports p).power) ∧
    (∀ p ∈ portIds, (s.ports p).mode = Mode.output →
      ((stop s portIds).ports p).power = 0) ∧
    ((stop s portIds).pending.filter isBreakOp =
      s.pending.filter isBreakOp ++
        (if portIds.filter (fun p => decide ((s.ports p).mode = Mode.output)) = []
         then []
         else [PendingOp.rawOp (CMD_BREAK ::
           (portIds.filter
             (fun p => decide ((s.ports p).mode = Mode.output))).map portHexId)])) := by
  set s1 := pvm s (stopPvmObjs s portIds) with hs1
  have hmode1 : ∀ i, (s1.ports i).mode = (s.ports i).mode := fun i =>
    (pvm_ports_proj s (stopPvmObjs s portIds) i).2.2.2
  have hpow1 : ∀ i, (s1.ports i).power = (s.ports i).power := fun i =>
    (pvm_ports_proj s (stopPvmObjs s portIds) i).2.1
  obtain ⟨m1, m2, m3, m4, m5⟩ := stopZeroFold portIds s1.ports []
  have hfilter :
      portIds.filter (fun p => decide ((s1.ports p).mode = Mode.output)) =
      portIds.filter (fun p => decide ((s.ports p).mode = Mode.output)) := by
    apply List.filter_congr
    intro a _
    rw [hmode1 a]
  have hr2 : (portIds.foldl stopZeroStep (s1.ports, [])).2 =
      (portIds.filter
        (fun p => decide ((s.ports p).mode = Mode.output))).map portHexId := by
    rw [m2, hfilter]
    rfl
  have hstop : stop s portIds =
      (if (CMD_BREAK :: (portIds.foldl stopZeroStep (s1.ports, [])).2).length > 1
       then { ports := (portIds.foldl stopZeroStep (s1.ports, [])).1
              pending := s1.pending ++
                [PendingOp.rawOp
                  (CMD_BREAK :: (portIds.foldl stopZeroStep (s1.ports, [])).2)] }
       else { s1 with
              ports := (portIds.foldl stopZeroStep (s1.ports, [])).1 }) := rfl
  have hports : (stop s portIds).ports =
      (portIds.foldl stopZeroStep (s1.ports, [])).1 := by
    rw [hstop]; split <;> rfl
  have hs1filter : s1.pending.filter isBreakOp = s.pending.filter isBreakOp := by
    rcases pvm_pending_cases s (stopPvmObjs s portIds) with h | ⟨ps2, h⟩
    · rw [hs1, h]
    · rw [hs1, h, List.filter_append]
      simp [isBreakOp_pvmCommand]
  refine ⟨?_, ?_, ?_⟩
  · intro p _ hmi
    rw [hports, m3 p (by rw [hmode1 p]; exact hmi), hpow1 p]
  · intro p hp hmo
    rw [hports]
    exact m4 p hp (by rw [hmode1 p]; exact hmo)
  · by_cases hFnil :
        portIds.filter (fun p => decide ((s.ports p).mode = Mode.output)) = []
    · have hlen :
          ¬ (CMD_BREAK :: (portIds.foldl stopZeroStep (s1.ports, [])).2).length > 1 := by
        rw [hr2, hFnil]
        simp
      have hpend : (stop s portIds).pending = s1.pending := by
        rw [hstop, if_neg hlen]
      rw [hpend, hs1filter, hFnil]
      simp
    · have hlen :
          (CMD_BREAK :: (portIds.foldl stopZeroStep (s1.ports, [])).2).length > 1 := by
        rw [hr2]
        simp only [List.length_cons, gt_iff_lt, Nat.lt_add_one_iff]
        rw [List.length_map]
        exact List.length_pos.mpr hFnil
      have hpend : (stop s portIds).pending =
          s1.pending ++ [PendingOp.rawOp (CMD_BREAK ::
            (portIds.filter
              (fun p => decide ((s.ports p).mode = Mode.output))).map portHexId)] := by
        rw [hstop, if_pos hlen, hr2]
      rw [hpend, List.filter_append, hs1filter, if_neg hFnil]
      congr 1

/-- C2 witness: stopping the (Output-mode, idle) port 0 of the initial state
zeroes its stored power. -/
theorem stop_break_frame_iff_witness :
    ((stop initState [0]).ports 0).power = 0 :=
  (stop_break_frame_iff initState [0]).2.1 0 (by decide) (by decide)

end SBrickSpec
